import Mathlib

/-!
Verification of the core logic of the oneclick5 scheduling widget: the
month-grid date arithmetic (MonthView.tsx, CalendarWidget.tsx), the
calendar/template/event store (the useCalendar hook), the upcoming-event
notifier (src/hooks/useUpcomingNotice.ts), the attachment size cap
(TemplateForm.tsx) and the startup load path.  All definitions are shallow
embeddings of the TypeScript source; dates are represented by epoch day
numbers and the JS `Date` constructor/accessors by their documented
arithmetic semantics.
-/

namespace Oneclick

/-! ### JavaScript date arithmetic -/

/-- Civil-from-date conversion (proleptic Gregorian, month `m` in 1..12): the
number of days from 1970-01-01 to year `y`, month `m`, day `d` (`d` may be
out of range; it simply offsets).  This is the arithmetic underlying the JS
`Date(year, month, day)` constructor.  Integer division here is floor
division (Lean's `Int` division), matching the standard algorithm. -/
def daysFromCivil (y m d : Int) : Int :=
  365 * (if m ≤ 2 then y - 1 else y)
    + (if m ≤ 2 then y - 1 else y) / 4
    - (if m ≤ 2 then y - 1 else y) / 100
    + (if m ≤ 2 then y - 1 else y) / 400
    + (153 * (if m ≤ 2 then m + 9 else m - 3) + 2) / 5
    + d - 1 - 719468

/-- Embeds the JS expression `new Date(y, m, d)` (month `m` 0-based; JS
normalizes out-of-range months into the year and out-of-range days into the
month), returning the date's epoch day number. -/
def jsMkDate (y m d : Int) : Int :=
  daysFromCivil (y + m / 12) (m % 12 + 1) d

/-- Embeds `Date.prototype.getDay` (0 = Sunday .. 6 = Saturday) on an epoch
day number; day 0 (1970-01-01) was a Thursday. -/
def jsGetDay (t : Int) : Int := (t + 4) % 7

/-- The program's day-of-week remapping `(nativeWeekday + 6) % 7`
(0 = Monday .. 6 = Sunday), written identically in useUpcomingNotice.ts
(`(now.getDay() + 6) % 7`), MonthView.tsx and CalendarWidget.tsx
(`(firstDay.getDay() + 6) % 7`). -/
def toMondayIndex (w : Int) : Int := (w + 6) % 7

/-- Monday-based weekday of a concrete date (an epoch day number): the
program's convention applied to the native weekday. -/
def mondayIndex (t : Int) : Int := toMondayIndex (jsGetDay t)

/-- Embeds the JS idiom `new Date(y, m + 1, 0).getDate()`: day 0 of month
`m + 1` normalizes to the last day of month `m`, whose day-of-month is the
number of days in month `m` (0-based, may be out of range) of year `y`. -/
def jsMonthLen (y m : Int) : Int := jsMkDate y (m + 1) 1 - jsMkDate y m 1

/-- Gregorian leap year rule. -/
def isLeapYear (y : Int) : Bool := (y % 4 == 0 && y % 100 != 0) || y % 400 == 0

/-- The textbook number of days of month `m` (0-based, 0..11) in year `y`:
the reference value the month grid is checked against. -/
def daysInMonth (y m : Int) : Int :=
  if m = 1 then (if isLeapYear y then 29 else 28)
  else if m = 3 ∨ m = 5 ∨ m = 8 ∨ m = 10 then 30 else 31

/-! ### Month grid generation -/

/-- One cell of the month grid as built by MonthView.tsx / CalendarWidget.tsx:
the day-of-month label, whether the cell belongs to the displayed month or to
the previous/next month, and the cell's concrete date as an epoch day
number. -/
structure DayCell where
  date : Int
  isCurrentMonth : Bool
  isNextMonth : Bool
  fullDate : Int
deriving Repr, DecidableEq

/-- Embeds the month-grid construction of MonthView.tsx lines 25-56; the same
code appears as `generateCalendarDays` in CalendarWidget.tsx lines 240-274.
Leading cells cover the previous month up to the Monday-based weekday of the
1st, then one cell per day of the current month, then cells of the next month
pad the list to 42.  `y` is the reference year and `m` the 0-based reference
month (as returned by `getFullYear`/`getMonth`). -/
def generateCalendarDays (y m : Int) : List DayCell :=
  let firstDayOfWeek : Nat := (mondayIndex (jsMkDate y m 1)).toNat
  let lastDate : Nat := (jsMonthLen y m).toNat
  let prevDate : Int := jsMonthLen y (m - 1)
  let leading : List DayCell := (List.range firstDayOfWeek).map (fun j =>
    { date := prevDate - ((firstDayOfWeek - 1 - j : Nat) : Int),
      isCurrentMonth := false, isNextMonth := false,
      fullDate := jsMkDate y (m - 1) (prevDate - ((firstDayOfWeek - 1 - j : Nat) : Int)) })
  let current : List DayCell := (List.range lastDate).map (fun (j : Nat) =>
    { date := (j : Int) + 1, isCurrentMonth := true, isNextMonth := false,
      fullDate := jsMkDate y m ((j : Int) + 1) })
  let trailing : List DayCell := (List.range (42 - (firstDayOfWeek + lastDate))).map
    (fun (j : Nat) =>
      { date := (j : Int) + 1, isCurrentMonth := false, isNextMonth := true,
        fullDate := jsMkDate y (m + 1) ((j : Int) + 1) })
  leading ++ current ++ trailing

/-! ### Data model of the persistent store (types/calendar.ts) -/

/-- A file attachment: persisted data URL (optional), file name and MIME
type.  The transient `file: File` handle of the source type is not part of
the persisted value model; its presence is modelled where it matters
(TemplateForm's size accounting, see `FormAttachment`). -/
structure Attachment where
  fileData : Option String
  fileName : String
  fileType : String
deriving Repr, DecidableEq

/-- A legacy application link: name plus optional URL. -/
structure AppLink where
  name : String
  url : Option String
deriving Repr, DecidableEq

/-- A reusable template (types/calendar.ts): id, name, description, colour,
duration in minutes, URLs, app links, app files and attachments.  The
optional array fields of the source type are modelled as lists, with `[]`
for an absent field. -/
structure Template where
  id : String
  name : String
  description : String
  color : String
  duration : Nat
  urls : List String
  apps : List AppLink
  appFiles : List Attachment
  attachments : List Attachment
deriving Repr, DecidableEq

/-- A wall-clock time of day, the parsed form of an HH:MM string. -/
structure HM where
  hh : Nat
  mm : Nat
deriving Repr, DecidableEq

/-- A placed event (types/calendar.ts): id, the source template's id, an
embedded copy of the template, start and end times (`none` models the empty
string, the only falsy value the code tests for) and the Monday-based day
index. -/
structure CalendarEvent where
  id : String
  templateId : String
  template : Template
  startTime : Option HM
  endTime : Option HM
  day : Int
deriving Repr, DecidableEq

/-- A calendar: its own templates and events. -/
structure CalendarData where
  id : String
  name : String
  templates : List Template
  events : List CalendarEvent
deriving Repr, DecidableEq

/-- The store state of the useCalendar hook that the mutation API operates
on: the calendar list and the persisted selected-calendar id. -/
structure CalState where
  calendars : List CalendarData
  selectedCalendarId : Option String
deriving Repr, DecidableEq

/-- The argument of addTemplate/updateTemplate: a Template without its id
(the TS type Omit of Template without id). -/
structure TemplateData where
  name : String
  description : String
  color : String
  duration : Nat
  urls : List String
  apps : List AppLink
  appFiles : List Attachment
  attachments : List Attachment
deriving Repr, DecidableEq

/-- Builds the template stored by addTemplate (`{ ...templateData, id }`)
and by updateTemplate (`{ ...t, ...templateData, id: templateId }`: every
non-id field of `t` is overwritten by the spread of the full
`templateData`). -/
def templateFromData (tid : String) (d : TemplateData) : Template :=
  { id := tid, name := d.name, description := d.description, color := d.color,
    duration := d.duration, urls := d.urls, apps := d.apps,
    appFiles := d.appFiles, attachments := d.attachments }

/-- The argument of addEvent: a CalendarEvent without id and template,
plus a required full `template` field. -/
structure NewEventData where
  templateId : String
  template : Template
  startTime : Option HM
  endTime : Option HM
  day : Int
deriving Repr, DecidableEq

/-- The argument of updateEvent (a TS Partial of CalendarEvent); an outer
`none` means the field is absent from the partial object. -/
structure EventPatch where
  id : Option String
  templateId : Option String
  template : Option Template
  startTime : Option (Option HM)
  endTime : Option (Option HM)
  day : Option Int
deriving Repr, DecidableEq

/-- Embeds the spread merge `{ ...e, ...updates }` of updateEvent: every
field present in the patch overwrites the event's field. -/
def mergeEvent (e : CalendarEvent) (p : EventPatch) : CalendarEvent :=
  { id := p.id.getD e.id, templateId := p.templateId.getD e.templateId,
    template := p.template.getD e.template,
    startTime := p.startTime.getD e.startTime,
    endTime := p.endTime.getD e.endTime,
    day := p.day.getD e.day }

/-! ### The useCalendar mutation API -/

/-- Embeds `calendars.find(c => c.id === selectedCalendarId) || calendars[0]`:
the effective selected calendar, falling back to the first calendar, and
`undefined` (here `none`) only when the list is empty. -/
def selectedCalendar (st : CalState) : Option CalendarData :=
  match st.calendars.find? (fun c => some c.id == st.selectedCalendarId) with
  | some c => some c
  | none => st.calendars.head?

/-- Embeds the updateCalendar helper: map over the calendars, replacing the
one whose id matches. -/
def updateCalendar (st : CalState) (cid : String) (f : CalendarData → CalendarData) :
    CalState :=
  { st with calendars := st.calendars.map (fun c => if c.id = cid then f c else c) }

/-- The guard shared by all six template/event mutations in the source:
return the state unchanged when there is no selected calendar, otherwise
rewrite the selected calendar through updateCalendar. -/
def onSelected (st : CalState) (f : CalendarData → CalendarData) : CalState :=
  match selectedCalendar st with
  | none => st
  | some sc => updateCalendar st sc.id f

/-- Embeds addTemplate: append `{ ...templateData, id: newId }` to the
selected calendar's template list; no-op without a selected calendar. -/
def addTemplate (st : CalState) (d : TemplateData) (newId : String) : CalState :=
  onSelected st (fun cal =>
    { cal with templates := cal.templates ++ [templateFromData newId d] })

/-- Embeds updateTemplate: replace the matching template in the selected
calendar's template list, leaving `cal.events` unchanged. -/
def updateTemplate (st : CalState) (tid : String) (d : TemplateData) : CalState :=
  onSelected st (fun cal =>
    { cal with templates :=
        (cal.templates.map (fun t => if t.id = tid then templateFromData tid d else t)) })

/-- Embeds deleteTemplate: filter the template out of the selected calendar's
template list, leaving events unchanged. -/
def deleteTemplate (st : CalState) (tid : String) : CalState :=
  onSelected st (fun cal =>
    { cal with templates := cal.templates.filter (fun t => t.id != tid) })

/-- The event built by addEvent:
`{ ...eventData, id: newId, template: { ...eventData.template }, templateId:
eventData.template.id }`.  The object spread `{ ...eventData.template }`
copies the template field by field, so as a value the snapshot equals
`eventData.template`; the reference sharing of its nested arrays is modelled
separately by `spreadCopy` on `TemplateObj`. -/
def newEventFromData (d : NewEventData) (newId : String) : CalendarEvent :=
  { id := newId, templateId := d.template.id, template := d.template,
    startTime := d.startTime, endTime := d.endTime, day := d.day }

/-- Embeds addEvent: append the new event to the selected calendar's event
list; no-op without a selected calendar. -/
def addEvent (st : CalState) (d : NewEventData) (newId : String) : CalState :=
  onSelected st (fun cal =>
    { cal with events := cal.events ++ [newEventFromData d newId] })

/-- Embeds deleteEvent: filter the event out of the selected calendar's event
list. -/
def deleteEvent (st : CalState) (eid : String) : CalState :=
  onSelected st (fun cal =>
    { cal with events := cal.events.filter (fun e => e.id != eid) })

/-- Embeds updateEvent: shallow-merge the patch into the matching event of
the selected calendar. -/
def updateEvent (st : CalState) (eid : String) (p : EventPatch) : CalState :=
  onSelected st (fun cal =>
    { cal with events :=
        (cal.events.map (fun e => if e.id = eid then mergeEvent e p else e)) })

/-- Embeds selectTemplate:
`setSelectedTemplate(prev => (prev?.id === template.id ? null : template))`. -/
def selectTemplate (prev : Option Template) (t : Template) : Option Template :=
  match prev with
  | some p => if p.id = t.id then none else some t
  | none => some t

/-- Embeds deleteCalendar: filter out the calendar with the given id; if the
deleted id was the selected one, select the first remaining calendar, or
clear the selection when none remain. -/
def deleteCalendar (st : CalState) (cid : String) : CalState :=
  { calendars := st.calendars.filter (fun c => c.id != cid),
    selectedCalendarId :=
      if st.selectedCalendarId = some cid then
        match (st.calendars.filter (fun c => c.id != cid)).head? with
        | some c => some c.id
        | none => none
      else st.selectedCalendarId }

/-- A concrete template used by witnesses and counterexamples. -/
def demoTemplate : Template :=
  { id := "t1", name := "Workout", description := "", color := "#3B82F6",
    duration := 60, urls := [], apps := [], appFiles := [], attachments := [] }

/-! ### Frame properties of the mutation API -/

/-! ### The six template/event mutations as one type (frame reasoning) -/

/-- The template/event mutations of the useCalendar facade, with the
generated ids passed explicitly (the source draws them from
`Date.now().toString()`). -/
inductive StoreMutation where
  | addTemplateOp (d : TemplateData) (newId : String)
  | updateTemplateOp (tid : String) (d : TemplateData)
  | deleteTemplateOp (tid : String)
  | addEventOp (d : NewEventData) (newId : String)
  | updateEventOp (eid : String) (p : EventPatch)
  | deleteEventOp (eid : String)
deriving Repr, DecidableEq

/-- Dispatch a mutation to its embedded operation. -/
def applyMutation (st : CalState) : StoreMutation → CalState
  | .addTemplateOp d newId => addTemplate st d newId
  | .updateTemplateOp tid d => updateTemplate st tid d
  | .deleteTemplateOp tid => deleteTemplate st tid
  | .addEventOp d newId => addEvent st d newId
  | .updateEventOp eid p => updateEvent st eid p
  | .deleteEventOp eid => deleteEvent st eid

/-- The calendar-level rewrite each mutation performs on the selected
calendar. -/
def mutationUpdater : StoreMutation → CalendarData → CalendarData
  | .addTemplateOp d newId => fun cal =>
      { cal with templates := cal.templates ++ [templateFromData newId d] }
  | .updateTemplateOp tid d => fun cal =>
      { cal with templates :=
          (cal.templates.map (fun t => if t.id = tid then templateFromData tid d else t)) }
  | .deleteTemplateOp tid => fun cal =>
      { cal with templates := cal.templates.filter (fun t => t.id != tid) }
  | .addEventOp d newId => fun cal =>
      { cal with events := cal.events ++ [newEventFromData d newId] }
  | .updateEventOp eid p => fun cal =>
      { cal with events :=
          (cal.events.map (fun e => if e.id = eid then mergeEvent e p else e)) }
  | .deleteEventOp eid => fun cal =>
      { cal with events := cal.events.filter (fun e => e.id != eid) }

/-! ### Aliasing of the addEvent template snapshot -/

/-- A JS template object viewed as an object-graph node: scalar fields carry
values while the array-valued fields (`urls`, `apps`, `attachments`) carry
references into a heap of arrays.  This models what the object spread
`{ ...eventData.template }` in addEvent actually copies: field contents,
including the array references, but not the arrays themselves. -/
structure TemplateObj where
  id : String
  name : String
  description : String
  color : String
  duration : Nat
  urls : Nat
  apps : Nat
  attachments : Nat
deriving Repr, DecidableEq

/-- Embeds the object spread `{ ...t }`: every field value is copied; the
array references are copied as references. -/
def spreadCopy (t : TemplateObj) : TemplateObj :=
  { id := t.id, name := t.name, description := t.description, color := t.color,
    duration := t.duration, urls := t.urls, apps := t.apps,
    attachments := t.attachments }

/-- Reads the url array a template object refers to. -/
def readUrls (heap : List (List String)) (t : TemplateObj) : List String :=
  heap.getD t.urls []

/-- Embeds an in-place array mutation `arr.push(s)` on the array at reference
`r`. -/
def pushUrl (heap : List (List String)) (r : Nat) (s : String) : List (List String) :=
  heap.set r (heap.getD r [] ++ [s])

/-- A concrete template object whose urls field refers to array 0 of
`demoUrlHeap`. -/
def demoTemplateObj : TemplateObj :=
  { id := "t1", name := "Workout", description := "", color := "#3B82F6",
    duration := 60, urls := 0, apps := 1, attachments := 2 }

/-- A concrete heap: the original template's url array holds one entry. -/
def demoUrlHeap : List (List String) := [["https://a.example"], [], []]

/-! ### Startup load of the calendar list -/

/-- What the load path can observe about the persisted calendars value:
absent from storage, present but failing JSON.parse, parsing to a non-array
value, or parsing to an array of calendars. -/
inductive StoredCalendars where
  | absent : StoredCalendars
  | malformed : StoredCalendars
  | parsedNonArray : StoredCalendars
  | parsedArray : List CalendarData → StoredCalendars
deriving Repr, DecidableEq

/-- The outcome of the useCalendar state initializer: the in-memory calendar
list, plus what (if anything) the initializer itself wrote back to the
calendars key and to the selected-calendar key. -/
structure LoadResult where
  calendars : List CalendarData
  persistedCalendars : Option (List CalendarData)
  persistedSelectedId : Option String
deriving Repr, DecidableEq

/-- The default calendar name used by the bootstrap path. -/
def defaultCalendarName : String := "시간표1"

/-- The bootstrap branch of the initializer: one default calendar with empty
template and event lists under the generated id, persisted immediately
together with its id as the selection. -/
def defaultLoad (defaultId : String) : LoadResult :=
  { calendars := [⟨defaultId, defaultCalendarName, [], []⟩],
    persistedCalendars := some [⟨defaultId, defaultCalendarName, [], []⟩],
    persistedSelectedId := some defaultId }

/-- Embeds the useCalendar calendars initializer: return the parsed value
when it is an array with at least one element; in every other case (absent,
parse failure, non-array, empty array) fall back to `defaultLoad`.  The
generated id (`Date.now().toString()` in the source) is a parameter. -/
def loadCalendars (saved : StoredCalendars) (defaultId : String) : LoadResult :=
  match saved with
  | .parsedArray cs =>
    if 0 < cs.length then
      { calendars := cs, persistedCalendars := none, persistedSelectedId := none }
    else defaultLoad defaultId
  | _ => defaultLoad defaultId

/-! ### Attachment size cap of the template form -/

/-- The 20 MB combined-size ceiling of TemplateForm.tsx. -/
def MAX_TOTAL_ATTACHMENT_SIZE : Nat := 20 * 1024 * 1024

/-- An attachment as the template form sees it for size accounting: the byte
size of the underlying file content, and whether the transient `file: File`
object is present.  Attachments restored from a stored template are rebuilt
with only fileData/fileName/fileType, so their `hasFile` is false. -/
structure FormAttachment where
  byteSize : Nat
  hasFile : Bool
deriving Repr, DecidableEq

/-- Embeds the summand `att.file?.size || 0`: the File object's size when it
is present, otherwise 0. -/
def attMeasure (a : FormAttachment) : Nat := if a.hasFile then a.byteSize else 0

/-- Embeds `attachments.reduce((sum, att) => sum + (att.file?.size || 0), 0)`. -/
def totalAttachmentSize (l : List FormAttachment) : Nat :=
  l.foldl (fun sum a => sum + attMeasure a) 0

/-- Embeds the acceptance loop of handleFileChange over the selected files
(given by their sizes): accept files in order while the running total stays
within the cap; at the first file pushing past the cap, alert (the Bool) and
break, dropping it and every later file. -/
def acceptFiles (total : Nat) : List Nat → List FormAttachment × Bool
  | [] => ([], false)
  | s :: rest =>
    if MAX_TOTAL_ATTACHMENT_SIZE < total + s then ([], true)
    else
      ((⟨s, true⟩ : FormAttachment) :: (acceptFiles (total + s) rest).1,
        (acceptFiles (total + s) rest).2)

/-- Embeds handleFileChange: start the running total from the existing
attachments' measure, run the acceptance loop, and append the accepted
attachments; the Bool reports whether the user was alerted. -/
def handleFileChange (attachments : List FormAttachment) (files : List Nat) :
    List FormAttachment × Bool :=
  ((attachments ++ (acceptFiles (totalAttachmentSize attachments) files).1),
    (acceptFiles (totalAttachmentSize attachments) files).2)

/-- A 19 MB attachment restored from storage while editing a template: the
base64 payload is present but the transient File object is not, so the size
check counts it as zero bytes. -/
def restoredAttachment : FormAttachment := ⟨19922944, false⟩

/-! ### The upcoming-event notifier (src/hooks/useUpcomingNotice.ts) -/

/-- The notice emitted by the hook: event id, resolved title and remaining
minutes. -/
structure UpcomingNotice where
  eventId : String
  title : String
  minutesLeft : Int
deriving Repr, DecidableEq

/-- The start instant of a parsed HH:MM time, in milliseconds from the
current day's midnight: what `new Date(y, mo, d, h, m).getTime()` contributes
past midnight. -/
def startMsOfHM (t : HM) : Int := ((t.hh : Int) * 60 + (t.mm : Int)) * 60000

/-- Embeds the per-event filter of the hook's update loop: skip events not on
today's Monday-based day index, skip a falsy startTime, form the start
instant from today's date and the event's HH:MM, skip unless
`0 < diff ≤ 60 minutes`, and otherwise produce the notice with
`minutesLeft = Math.ceil(diffMs / 60000)` (for a positive integer diff in
milliseconds this ceiling is `(diffMs + 59999) / 60000` rounded down) and the
title resolved from the embedded template. -/
def checkEvent (nowDay nowMs : Int) (ev : CalendarEvent) : Option UpcomingNotice :=
  if ev.day = nowDay then
    match ev.startTime with
    | none => none
    | some t =>
      if 0 < startMsOfHM t - nowMs ∧ startMsOfHM t - nowMs ≤ 3600000 then
        some { eventId := ev.id, title := ev.template.name,
               minutesLeft := (startMsOfHM t - nowMs + 59999) / 60000 }
      else none
  else none

/-- Embeds the body of the scan loop: keep the current best notice unless the
event qualifies and has strictly fewer minutes left (the first qualifying
event wins ties). -/
def scanStep (nowDay nowMs : Int) (best : Option UpcomingNotice)
    (ev : CalendarEvent) : Option UpcomingNotice :=
  match checkEvent nowDay nowMs ev with
  | none => best
  | some cand =>
    match best with
    | none => some cand
    | some b => if cand.minutesLeft < b.minutesLeft then some cand else some b

/-- Embeds the update loop over the event list with `best` starting at
null. -/
def upcomingScan (nowDay nowMs : Int) (events : List CalendarEvent) :
    Option UpcomingNotice :=
  events.foldl (scanStep nowDay nowMs) none

/-- Embeds useUpcomingNotice on a tick: today's day index is
`(now.getDay() + 6) % 7` and the scan runs over the supplied events (the
early return on an empty or missing list coincides with the scan's result on
`[]`). -/
def useUpcomingNotice (today nowMs : Int) (events : List CalendarEvent) :
    Option UpcomingNotice :=
  upcomingScan (toMondayIndex (jsGetDay today)) nowMs events

/-- A concrete event on Monday (day index 0) starting at the given
HH:MM, used by the example evaluations below. -/
def demoEventAt (eid : String) (hh mm : Nat) : CalendarEvent :=
  { id := eid, templateId := demoTemplate.id, template := demoTemplate,
    startTime := some ⟨hh, mm⟩, endTime := some ⟨hh + 1, mm⟩, day := 0 }

/-! ### Concrete witnesses -/

/-- A concrete calendar holding the demo template, selected in
`demoState`. -/
def demoCalendarA : CalendarData := ⟨"c1", "A", [demoTemplate], []⟩

/-- A second, unselected calendar. -/
def demoCalendarB : CalendarData := ⟨"c2", "B", [], []⟩

/-- A concrete store state with two calendars, the first selected. -/
def demoState : CalState := ⟨[demoCalendarA, demoCalendarB], some "c1"⟩

/-- Concrete addEvent input data. -/
def demoNewEvent : NewEventData :=
  ⟨demoTemplate.id, demoTemplate, some ⟨9, 0⟩, some ⟨10, 0⟩, 0⟩

/-- Concrete updateTemplate input data. -/
def demoTemplateData : TemplateData :=
  ⟨"Reading", "", "#EF4444", 120, [], [], [], []⟩

/-! ### Verified properties -/

theorem jsMkDate_day (y m d : Int) : jsMkDate y m d = jsMkDate y m 1 + d - 1 := by
  simp only [jsMkDate, daysFromCivil]
  split <;> ring

theorem jsMonthLen_eq_daysInMonth (y m : Int) (h0 : 0 ≤ m) (h1 : m < 12) :
    jsMonthLen y m = daysInMonth y m := by
  interval_cases m <;>
    simp only [jsMonthLen, jsMkDate, daysFromCivil, daysInMonth, isLeapYear] <;>
    norm_num <;> omega

theorem daysInMonth_bounds (y m : Int) : 28 ≤ daysInMonth y m ∧ daysInMonth y m ≤ 31 := by
  simp only [daysInMonth]
  split
  · split <;> omega
  · split <;> omega

theorem mondayIndex_bounds (t : Int) : 0 ≤ mondayIndex t ∧ mondayIndex t < 7 := by
  simp only [mondayIndex, toMondayIndex, jsGetDay]
  omega

/-- C4: for every reference date (year `y`, 0-based month `m` in 0..11) the
month grid has exactly 42 cells whose dates are 42 consecutive days starting
on a Monday (6 full weeks); the `isCurrentMonth` flags form a single
contiguous run of `true` cells whose length is the true number of days of the
month, preceded and followed by runs of `false` cells; the leading cells
carry the trailing day numbers of the previous month and the trailing cells
the day numbers 1, 2, ... of the next month. -/
theorem generateCalendarDays_spec (y m : Int) (h0 : 0 ≤ m) (h1 : m < 12) :
    (generateCalendarDays y m).length = 42 ∧
    ((generateCalendarDays y m).map (fun c => c.fullDate)
      = (List.range 42).map
          (fun (i : Nat) => jsMkDate y m 1 - mondayIndex (jsMkDate y m 1) + (i : Int))) ∧
    mondayIndex (jsMkDate y m 1 - mondayIndex (jsMkDate y m 1)) = 0 ∧
    0 < (daysInMonth y m).toNat ∧
    ((generateCalendarDays y m).map (fun c => c.isCurrentMonth)
      = List.replicate (mondayIndex (jsMkDate y m 1)).toNat false
        ++ List.replicate (daysInMonth y m).toNat true
        ++ List.replicate
            (42 - ((mondayIndex (jsMkDate y m 1)).toNat + (daysInMonth y m).toNat)) false) ∧
    ((generateCalendarDays y m).map (fun c => c.date)
      = (List.range (mondayIndex (jsMkDate y m 1)).toNat).map
          (fun (j : Nat) => jsMonthLen y (m - 1) - mondayIndex (jsMkDate y m 1) + 1 + (j : Int))
        ++ (List.range (daysInMonth y m).toNat).map (fun (j : Nat) => (j : Int) + 1)
        ++ (List.range
            (42 - ((mondayIndex (jsMkDate y m 1)).toNat + (daysInMonth y m).toNat))).map
            (fun (j : Nat) => (j : Int) + 1)) := by
  have hlen := jsMonthLen_eq_daysInMonth y m h0 h1
  have hdb := daysInMonth_bounds y m
  have hmb := mondayIndex_bounds (jsMkDate y m 1)
  have hprev : jsMonthLen y (m - 1) = jsMkDate y m 1 - jsMkDate y (m - 1) 1 := by
    simp only [jsMonthLen, sub_add_cancel]
  have hnext : jsMkDate y (m + 1) 1 = jsMkDate y m 1 + jsMonthLen y m := by
    simp only [jsMonthLen]; ring
  refine ⟨?_, ?_, ?_, ?_, ?_, ?_⟩
  · simp only [generateCalendarDays, List.length_append, List.length_map, List.length_range,
      hlen]
    omega
  · simp only [generateCalendarDays, hlen]
    have hsum42 : (42 : Nat)
        = ((mondayIndex (jsMkDate y m 1)).toNat + (daysInMonth y m).toNat)
          + (42 - ((mondayIndex (jsMkDate y m 1)).toNat + (daysInMonth y m).toNat)) := by
      omega
    conv_rhs => rw [hsum42, List.range_add, List.range_add]
    simp only [List.map_append, List.map_map]
    congr 1
    congr 1
    · refine List.map_congr_left ?_
      intro j hj
      rw [List.mem_range] at hj
      simp only [Function.comp_apply]
      rw [jsMkDate_day y (m - 1), hprev]
      omega
    · refine List.map_congr_left ?_
      intro j hj
      rw [List.mem_range] at hj
      simp only [Function.comp_apply]
      rw [jsMkDate_day y m ((j : Int) + 1)]
      omega
    · refine List.map_congr_left ?_
      intro j hj
      rw [List.mem_range] at hj
      simp only [Function.comp_apply]
      rw [jsMkDate_day y (m + 1) ((j : Int) + 1), hnext, hlen]
      omega
  · have := mondayIndex_bounds (jsMkDate y m 1)
    simp only [mondayIndex, toMondayIndex, jsGetDay] at this ⊢
    omega
  · omega
  · simp only [generateCalendarDays, hlen, List.map_append, List.map_map]
    congr 1
    congr 1
    · show (List.range (mondayIndex (jsMkDate y m 1)).toNat).map (fun _ => false) = _
      rw [List.map_const', List.length_range]
    · show (List.range (daysInMonth y m).toNat).map (fun _ => true) = _
      rw [List.map_const', List.length_range]
    · show (List.range
          (42 - ((mondayIndex (jsMkDate y m 1)).toNat + (daysInMonth y m).toNat))).map
          (fun _ => false) = _
      rw [List.map_const', List.length_range]
  · simp only [generateCalendarDays, hlen, List.map_append, List.map_map]
    congr 1
    congr 1
    · refine List.map_congr_left ?_
      intro j hj
      rw [List.mem_range] at hj
      simp only [Function.comp_apply]
      rw [hprev]
      omega

/-- Witness for C4: the October 2025 grid, with the hypotheses on the month
index discharged concretely. -/
theorem generateCalendarDays_spec_witness :
    (generateCalendarDays 2025 9).length = 42 :=
  (generateCalendarDays_spec 2025 9 (by decide) (by decide)).1

/-- C9: the Monday-based day-of-week convention.  `mondayIndex`, the index
the program derives from any concrete date, is exactly `(nativeWeekday+6)%7`
applied to the native (0 = Sunday) weekday and always lands in 0..6, and on
the seven native weekday values the remapping sends Monday (native 1) to 0,
Tuesday to 1, Wednesday to 2, Thursday to 3, Friday to 4, Saturday to 5 and
Sunday (native 0) to 6. -/
theorem toMondayIndex_spec :
    (∀ t : Int, mondayIndex t = toMondayIndex (jsGetDay t)
      ∧ 0 ≤ mondayIndex t ∧ mondayIndex t < 7) ∧
    toMondayIndex 1 = 0 ∧ toMondayIndex 2 = 1 ∧ toMondayIndex 3 = 2 ∧
    toMondayIndex 4 = 3 ∧ toMondayIndex 5 = 4 ∧ toMondayIndex 6 = 5 ∧
    toMondayIndex 0 = 6 := by
  refine ⟨fun t => ⟨rfl, ?_⟩, by decide, by decide, by decide, by decide, by decide,
    by decide, by decide⟩
  simp only [mondayIndex, toMondayIndex, jsGetDay]
  omega

/-- Shared helper: updateCalendar with an events-preserving update leaves the
events of every calendar unchanged. -/
theorem updateCalendar_events_eq (st : CalState) (cid : String)
    (f : CalendarData → CalendarData) (hf : ∀ c, (f c).events = c.events) :
    (updateCalendar st cid f).calendars.map (fun c => c.events)
      = st.calendars.map (fun c => c.events) := by
  simp only [updateCalendar, List.map_map]
  refine List.map_congr_left ?_
  intro c _
  simp only [Function.comp_apply]
  split
  · exact hf c
  · rfl

/-- Shared helper: onSelected with an events-preserving update leaves every
calendar's event list unchanged. -/
theorem onSelected_events_eq (st : CalState) (f : CalendarData → CalendarData)
    (hf : ∀ c, (f c).events = c.events) :
    (onSelected st f).calendars.map (fun c => c.events)
      = st.calendars.map (fun c => c.events) := by
  unfold onSelected
  cases h : selectedCalendar st with
  | none => rfl
  | some sc => exact updateCalendar_events_eq st sc.id f hf

/-- Shared helper: updateTemplate never changes any calendar's event list. -/
theorem updateTemplate_events (st : CalState) (tid : String) (d : TemplateData) :
    (updateTemplate st tid d).calendars.map (fun c => c.events)
      = st.calendars.map (fun c => c.events) :=
  onSelected_events_eq st _ (fun _ => rfl)

/-- Shared helper: deleteTemplate never changes any calendar's event list. -/
theorem deleteTemplate_events (st : CalState) (tid : String) :
    (deleteTemplate st tid).calendars.map (fun c => c.events)
      = st.calendars.map (fun c => c.events) :=
  onSelected_events_eq st _ (fun _ => rfl)

/-- C3: updateTemplate leaves every calendar's event list (and with it every
event's embedded template snapshot and start/end times) unchanged;
deleteTemplate also leaves all event lists unchanged (so event counts and
contents agree before and after) and, on the selected calendar, only filters
the template out of the template list. -/
theorem templateOps_leave_events (st : CalState) (tid : String) (d : TemplateData) :
    ((updateTemplate st tid d).calendars.map (fun c => c.events)
      = st.calendars.map (fun c => c.events)) ∧
    ((deleteTemplate st tid).calendars.map (fun c => c.events)
      = st.calendars.map (fun c => c.events)) ∧
    ((deleteTemplate st tid).calendars.map (fun c => c.events.length)
      = st.calendars.map (fun c => c.events.length)) ∧
    (∀ sc, selectedCalendar st = some sc →
      ∀ (i : Nat) (c : CalendarData), st.calendars[i]? = some c → c.id = sc.id →
        (deleteTemplate st tid).calendars[i]?
          = some { c with templates := c.templates.filter (fun t => t.id != tid) }) := by
  refine ⟨updateTemplate_events st tid d, deleteTemplate_events st tid, ?_, ?_⟩
  · have h := deleteTemplate_events st tid
    have h2 := congrArg (List.map List.length) h
    simpa [List.map_map, Function.comp] using h2
  · intro sc hsc i c hc hcid
    simp only [deleteTemplate, onSelected, hsc, updateCalendar, List.getElem?_map, hc,
      Option.map_some', if_pos hcid]

/-- C5: deleteCalendar removes exactly the calendars whose id matches; when
the removed id was the selected one the selection becomes the first remaining
calendar's id (or none when the list is now empty), and otherwise the
selection is untouched. -/
theorem deleteCalendar_spec (st : CalState) (cid : String) :
    (deleteCalendar st cid).calendars = st.calendars.filter (fun c => c.id != cid) ∧
    (∀ c ∈ st.calendars, c.id ≠ cid → c ∈ (deleteCalendar st cid).calendars) ∧
    (∀ c ∈ (deleteCalendar st cid).calendars, c ∈ st.calendars ∧ c.id ≠ cid) ∧
    (st.selectedCalendarId = some cid →
      (deleteCalendar st cid).selectedCalendarId
        = ((deleteCalendar st cid).calendars.head?).map (fun c => c.id)) ∧
    (st.selectedCalendarId ≠ some cid →
      (deleteCalendar st cid).selectedCalendarId = st.selectedCalendarId) := by
  refine ⟨rfl, ?_, ?_, ?_, ?_⟩
  · intro c hc hne
    simp [deleteCalendar, List.mem_filter, hc, bne_iff_ne, hne]
  · intro c hc
    simp only [deleteCalendar, List.mem_filter, bne_iff_ne, ne_eq] at hc
    exact ⟨hc.1, hc.2⟩
  · intro hsel
    simp only [deleteCalendar, if_pos hsel]
    cases hh : (st.calendars.filter (fun c => c.id != cid)).head? <;> simp [hh]
  · intro hne
    simp only [deleteCalendar, if_neg hne]

/-- C8 counterexample: toggling twice on a template that is currently
selected does not return to the unselected state; it re-selects the
template. -/
theorem selectTemplate_twice_counterexample :
    selectTemplate (selectTemplate (some demoTemplate) demoTemplate) demoTemplate
        = some demoTemplate ∧
    selectTemplate (selectTemplate (some demoTemplate) demoTemplate) demoTemplate
        ≠ none := by
  refine ⟨rfl, by decide⟩

/-- C8 (amended): selecting a template whose id matches the current selection
clears it, selecting any other template selects it, and toggling twice
returns to the unselected state exactly when the template was not already
selected at the start (when it was, two toggles select it again). -/
theorem selectTemplate_spec :
    (∀ (prev : Option Template) (t p : Template), prev = some p → p.id = t.id →
      selectTemplate prev t = none) ∧
    (∀ (prev : Option Template) (t : Template),
      (∀ p, prev = some p → p.id ≠ t.id) → selectTemplate prev t = some t) ∧
    (∀ (prev : Option Template) (t : Template),
      (∀ p, prev = some p → p.id ≠ t.id) →
        selectTemplate (selectTemplate prev t) t = none) ∧
    (∀ (prev : Option Template) (t p : Template), prev = some p → p.id = t.id →
      selectTemplate (selectTemplate prev t) t = some t) := by
  refine ⟨?_, ?_, ?_, ?_⟩
  · rintro prev t p rfl he
    simp [selectTemplate, he]
  · intro prev t hp
    cases prev with
    | none => rfl
    | some p => simp [selectTemplate, hp p rfl]
  · intro prev t hp
    cases prev with
    | none => simp [selectTemplate]
    | some p => simp [selectTemplate, hp p rfl]
  · rintro prev t p rfl he
    simp [selectTemplate, he]

/-- Witness for C8's amended theorem: a double toggle from the empty
selection ends unselected. -/
theorem selectTemplate_spec_witness :
    selectTemplate (selectTemplate none demoTemplate) demoTemplate = none :=
  selectTemplate_spec.2.2.1 none demoTemplate (fun p h => nomatch h)

theorem applyMutation_eq_onSelected (st : CalState) (mu : StoreMutation) :
    applyMutation st mu = onSelected st (mutationUpdater mu) := by
  cases mu <;> rfl

theorem mutationUpdater_preserves (mu : StoreMutation) (c : CalendarData) :
    ((mutationUpdater mu) c).id = c.id ∧ ((mutationUpdater mu) c).name = c.name := by
  cases mu <;> exact ⟨rfl, rfl⟩

/-- Shared helper: the frame of onSelected for id- and name-preserving
calendar updates. -/
theorem onSelected_frame (st : CalState) (f : CalendarData → CalendarData)
    (hf : ∀ c, (f c).id = c.id ∧ (f c).name = c.name) :
    (onSelected st f).selectedCalendarId = st.selectedCalendarId ∧
    (onSelected st f).calendars.length = st.calendars.length ∧
    (selectedCalendar st = none → onSelected st f = st) ∧
    (∀ (i : Nat) (c : CalendarData), st.calendars[i]? = some c →
      ∃ c2, (onSelected st f).calendars[i]? = some c2
        ∧ c2.id = c.id ∧ c2.name = c.name) ∧
    (∀ sc, selectedCalendar st = some sc →
      ∀ (i : Nat) (c : CalendarData), st.calendars[i]? = some c → c.id ≠ sc.id →
        (onSelected st f).calendars[i]? = some c) := by
  unfold onSelected
  cases h : selectedCalendar st with
  | none =>
    exact ⟨rfl, rfl, fun _ => rfl, fun i c hc => ⟨c, hc, rfl, rfl⟩,
      fun sc2 hsc2 i c hc hne => hc⟩
  | some sc =>
    refine ⟨rfl, by simp [updateCalendar], ?_, ?_, ?_⟩
    · intro hnone
      exact Option.noConfusion hnone
    · intro i c hc
      show ∃ c2, (updateCalendar st sc.id f).calendars[i]? = some c2
        ∧ c2.id = c.id ∧ c2.name = c.name
      simp only [updateCalendar, List.getElem?_map, hc, Option.map_some']
      by_cases hcc : c.id = sc.id
      · rw [if_pos hcc]
        exact ⟨f c, rfl, (hf c).1, (hf c).2⟩
      · rw [if_neg hcc]
        exact ⟨c, rfl, rfl, rfl⟩
    · intro sc2 hsc2 i c hc hne
      injection hsc2 with he
      subst he
      show (updateCalendar st sc.id f).calendars[i]? = some c
      simp only [updateCalendar, List.getElem?_map, hc, Option.map_some', if_neg hne]

/-- C10: every template/event mutation keeps the stored selection, the number
and order of calendars (each position keeps its calendar's id and name),
rewrites at most the calendars whose id equals the effective selected
calendar's id, and is the identity when no calendar is selected (the
calendar list is empty). -/
theorem mutations_frame (st : CalState) (mu : StoreMutation) :
    (applyMutation st mu).selectedCalendarId = st.selectedCalendarId ∧
    (applyMutation st mu).calendars.length = st.calendars.length ∧
    (selectedCalendar st = none → applyMutation st mu = st) ∧
    (∀ (i : Nat) (c : CalendarData), st.calendars[i]? = some c →
      ∃ c2, (applyMutation st mu).calendars[i]? = some c2
        ∧ c2.id = c.id ∧ c2.name = c.name) ∧
    (∀ sc, selectedCalendar st = some sc →
      ∀ (i : Nat) (c : CalendarData), st.calendars[i]? = some c → c.id ≠ sc.id →
        (applyMutation st mu).calendars[i]? = some c) := by
  rw [applyMutation_eq_onSelected]
  exact onSelected_frame st (mutationUpdater mu) (mutationUpdater_preserves mu)

/-- C2 counterexample: the snapshot stored by addEvent is the object spread
`{ ...eventData.template }`, which shares the nested url array with the
original template object; pushing onto the original's url array after the
event was added changes what the stored snapshot's urls resolve to, so the
copy is shallow, not an independent deep copy. -/
theorem addEvent_template_copy_counterexample :
    spreadCopy demoTemplateObj = demoTemplateObj ∧
    readUrls demoUrlHeap (spreadCopy demoTemplateObj) = ["https://a.example"] ∧
    readUrls (pushUrl demoUrlHeap demoTemplateObj.urls "https://b.example")
        (spreadCopy demoTemplateObj)
      = ["https://a.example", "https://b.example"] ∧
    readUrls (pushUrl demoUrlHeap demoTemplateObj.urls "https://b.example")
        (spreadCopy demoTemplateObj)
      ≠ readUrls demoUrlHeap (spreadCopy demoTemplateObj) := by
  refine ⟨rfl, rfl, rfl, by decide⟩

/-- C2 (amended): addEvent appends exactly one event to the selected
calendar, carrying the supplied generated id, the template id, and a shallow
copy of the supplied template (equal to it as a value); the stored snapshot
is never altered by later updateTemplate calls, which replace the template
object in the template list instead of mutating it. -/
theorem addEvent_snapshot_spec (st : CalState) (d : NewEventData) (newId : String) :
    (∀ sc, selectedCalendar st = some sc →
      (addEvent st d newId).calendars = st.calendars.map (fun c =>
        if c.id = sc.id then { c with events := c.events ++ [newEventFromData d newId] }
        else c)) ∧
    (newEventFromData d newId).id = newId ∧
    (newEventFromData d newId).template = d.template ∧
    (newEventFromData d newId).templateId = d.template.id ∧
    (∀ tid td,
      (updateTemplate (addEvent st d newId) tid td).calendars.map (fun c => c.events)
        = (addEvent st d newId).calendars.map (fun c => c.events)) := by
  refine ⟨?_, rfl, rfl, rfl, ?_⟩
  · intro sc hsc
    simp only [addEvent, onSelected, hsc, updateCalendar]
  · intro tid td
    exact updateTemplate_events (addEvent st d newId) tid td

/-- C6 counterexample: a persisted value of `"[]"` parses successfully to an
empty array, yet the initializer does not return the parsed (empty) calendar
list; it falls back to the synthesized default calendar. -/
theorem loadCalendars_counterexample :
    (loadCalendars (StoredCalendars.parsedArray []) "1").calendars ≠ [] ∧
    (loadCalendars (StoredCalendars.parsedArray []) "1").calendars
      = [⟨"1", defaultCalendarName, [], []⟩] := by
  refine ⟨by decide, rfl⟩

/-- C6 (amended): when the persisted value is absent, unparseable, not an
array, or an empty array, the initializer synthesizes exactly one default
calendar with empty template and event lists under the generated id and
immediately persists that list and the generated id as the selection (a
parse failure is never propagated: every input yields a result); when the
value parses to a non-empty array, that array is returned unchanged and
nothing is written back. -/
theorem loadCalendars_spec (saved : StoredCalendars) (defaultId : String) :
    ((saved = StoredCalendars.absent ∨ saved = StoredCalendars.malformed
        ∨ saved = StoredCalendars.parsedNonArray
        ∨ saved = StoredCalendars.parsedArray []) →
      (loadCalendars saved defaultId).calendars
          = [⟨defaultId, defaultCalendarName, [], []⟩] ∧
      (loadCalendars saved defaultId).persistedCalendars
          = some (loadCalendars saved defaultId).calendars ∧
      (loadCalendars saved defaultId).persistedSelectedId = some defaultId) ∧
    (∀ cs, saved = StoredCalendars.parsedArray cs → cs ≠ [] →
      loadCalendars saved defaultId
        = { calendars := cs, persistedCalendars := none,
            persistedSelectedId := none }) := by
  constructor
  · rintro (rfl | rfl | rfl | rfl) <;> exact ⟨rfl, rfl, rfl⟩
  · rintro cs rfl hcs
    have : 0 < cs.length := List.length_pos.mpr hcs
    simp [loadCalendars, this]

theorem totalAttachmentSize_eq_sum (l : List FormAttachment) :
    totalAttachmentSize l = (l.map attMeasure).sum := by
  have aux : ∀ (l : List FormAttachment) (n : Nat),
      l.foldl (fun sum a => sum + attMeasure a) n = n + (l.map attMeasure).sum := by
    intro l
    induction l with
    | nil => intro n; simp
    | cons a rest ih =>
      intro n
      simp [List.foldl_cons, ih, Nat.add_assoc]
  simpa using aux l 0

/-- Shared helper: the acceptance loop accepts exactly the longest prefix of
the files that fits under the cap, alerts exactly when some file was
dropped, and the first dropped file is one that would overflow the cap. -/
theorem acceptFiles_spec (files : List Nat) :
    ∀ (total : Nat), ∃ k, k ≤ files.length ∧
      (acceptFiles total files).1
        = (files.take k).map (fun s => (⟨s, true⟩ : FormAttachment)) ∧
      ((acceptFiles total files).2 = true ↔ k < files.length) ∧
      (∀ j, j < k → total + ((files.take (j + 1)).sum) ≤ MAX_TOTAL_ATTACHMENT_SIZE) ∧
      (∀ s, files[k]? = some s →
        MAX_TOTAL_ATTACHMENT_SIZE < total + (files.take k).sum + s) := by
  induction files with
  | nil =>
    intro total
    exact ⟨0, Nat.le_refl 0, rfl, by simp [acceptFiles], fun j hj => absurd hj (Nat.not_lt_zero j),
      fun s hs => by simp at hs⟩
  | cons s rest ih =>
    intro total
    by_cases hover : MAX_TOTAL_ATTACHMENT_SIZE < total + s
    · refine ⟨0, Nat.zero_le _, ?_, ?_, fun j hj => absurd hj (Nat.not_lt_zero j), ?_⟩
      · simp [acceptFiles, hover]
      · simp [acceptFiles, hover]
      · intro s2 hs2
        simp only [List.getElem?_cons_zero, Option.some_inj] at hs2
        subst hs2
        simpa using hover
    · obtain ⟨k, hk, h1, h2, h3, h4⟩ := ih (total + s)
      refine ⟨k + 1, by simpa using Nat.succ_le_succ hk, ?_, ?_, ?_, ?_⟩
      · simp [acceptFiles, hover, h1]
      · simp only [acceptFiles, if_neg hover]
        rw [h2]
        simp [Nat.succ_lt_succ_iff]
      · intro j hj
        cases j with
        | zero => simpa using Nat.le_of_not_lt hover
        | succ j2 =>
          have := h3 j2 (Nat.lt_of_succ_lt_succ hj)
          simpa [Nat.add_assoc] using this
      · intro s2 hs2
        simp only [List.getElem?_cons_succ] at hs2
        have := h4 s2 hs2
        simpa [Nat.add_assoc] using this

/-- C7 (amended): handleFileChange appends, in order, exactly the longest
prefix of the newly selected files that keeps the running total of
`att.file?.size || 0` (attachments without an in-memory File object count as
zero) within the 20 MB cap; the first file that would push past the cap
triggers the alert and it and all later files of the selection are dropped;
the previously stored attachment list is kept intact as a prefix. -/
theorem handleFileChange_spec (attachments : List FormAttachment) (files : List Nat) :
    ∃ k, k ≤ files.length ∧
      (handleFileChange attachments files).1
        = attachments ++ (files.take k).map (fun s => (⟨s, true⟩ : FormAttachment)) ∧
      ((handleFileChange attachments files).2 = true ↔ k < files.length) ∧
      (∀ j, j < k →
        totalAttachmentSize attachments + ((files.take (j + 1)).sum)
          ≤ MAX_TOTAL_ATTACHMENT_SIZE) ∧
      (∀ s, files[k]? = some s →
        MAX_TOTAL_ATTACHMENT_SIZE
          < totalAttachmentSize attachments + (files.take k).sum + s) := by
  obtain ⟨k, hk, h1, h2, h3, h4⟩ := acceptFiles_spec files (totalAttachmentSize attachments)
  exact ⟨k, hk, by simp [handleFileChange, h1], by simpa [handleFileChange] using h2, h3, h4⟩

/-- C7 counterexample: with a 19 MB attachment restored from storage already
on the template, adding a fresh 5 MB file is accepted without any alert,
although the combined size of all of the template's attachments (19 MB +
5 MB = 24 MB) exceeds the 20 MB ceiling. -/
theorem handleFileChange_counterexample :
    (handleFileChange [restoredAttachment] [5242880]).2 = false ∧
    (handleFileChange [restoredAttachment] [5242880]).1
      = [restoredAttachment, ⟨5242880, true⟩] ∧
    MAX_TOTAL_ATTACHMENT_SIZE
      < (((handleFileChange [restoredAttachment] [5242880]).1).map
          (fun a => a.byteSize)).sum := by
  refine ⟨rfl, rfl, by decide⟩

theorem scanStep_none_iff (nowDay nowMs : Int) (acc : Option UpcomingNotice)
    (ev : CalendarEvent) :
    scanStep nowDay nowMs acc ev = none ↔
      acc = none ∧ checkEvent nowDay nowMs ev = none := by
  unfold scanStep
  cases hc : checkEvent nowDay nowMs ev with
  | none => cases acc <;> simp
  | some cand =>
    cases acc with
    | none => simp
    | some b =>
      constructor
      · intro h
        by_cases hlt : cand.minutesLeft < b.minutesLeft <;>
          simp [hlt] at h
      · rintro ⟨h, -⟩
        exact Option.noConfusion h

theorem scanStep_some (nowDay nowMs : Int) (acc : Option UpcomingNotice)
    (ev : CalendarEvent) (b : UpcomingNotice)
    (h : scanStep nowDay nowMs acc ev = some b) :
    (acc = some b ∨ checkEvent nowDay nowMs ev = some b) ∧
    (∀ a, acc = some a → b.minutesLeft ≤ a.minutesLeft) ∧
    (∀ c, checkEvent nowDay nowMs ev = some c → b.minutesLeft ≤ c.minutesLeft) := by
  cases acc with
  | none =>
    cases hc : checkEvent nowDay nowMs ev with
    | none =>
      simp only [scanStep, hc] at h
      exact Option.noConfusion h
    | some cand =>
      simp only [scanStep, hc] at h
      injection h with he
      subst he
      refine ⟨Or.inr rfl, fun a ha => Option.noConfusion ha, ?_⟩
      intro c hcc
      injection hcc with he2
      rw [he2]
  | some b0 =>
    cases hc : checkEvent nowDay nowMs ev with
    | none =>
      simp only [scanStep, hc] at h
      injection h with he
      subst he
      refine ⟨Or.inl rfl, ?_, ?_⟩
      · intro a ha
        injection ha with he2
        subst he2
        exact Int.le_refl _
      · intro c hcc
        exact Option.noConfusion hcc
    | some cand =>
      simp only [scanStep, hc] at h
      by_cases hlt : cand.minutesLeft < b0.minutesLeft
      · rw [if_pos hlt] at h
        injection h with he
        subst he
        refine ⟨Or.inr rfl, ?_, ?_⟩
        · intro a ha
          injection ha with he2
          subst he2
          exact Int.le_of_lt hlt
        · intro c hcc
          injection hcc with he2
          rw [he2]
      · rw [if_neg hlt] at h
        injection h with he
        subst he
        refine ⟨Or.inl rfl, ?_, ?_⟩
        · intro a ha
          injection ha with he2
          subst he2
          exact Int.le_refl _
        · intro c hcc
          injection hcc with he2
          subst he2
          exact le_of_not_lt hlt

/-- Shared helper: full characterization of the fold behind the scan, for an
arbitrary accumulator. -/
theorem upcomingScan_go (nowDay nowMs : Int) (events : List CalendarEvent) :
    ∀ acc : Option UpcomingNotice,
      (events.foldl (scanStep nowDay nowMs) acc = none ↔
        (acc = none ∧ ∀ ev ∈ events, checkEvent nowDay nowMs ev = none)) ∧
      (∀ b, events.foldl (scanStep nowDay nowMs) acc = some b →
        (acc = some b ∨ ∃ ev ∈ events, checkEvent nowDay nowMs ev = some b) ∧
        (∀ a, acc = some a → b.minutesLeft ≤ a.minutesLeft) ∧
        (∀ ev ∈ events, ∀ c, checkEvent nowDay nowMs ev = some c →
          b.minutesLeft ≤ c.minutesLeft)) := by
  induction events with
  | nil =>
    intro acc
    constructor
    · simp
    · intro b hb
      simp only [List.foldl_nil] at hb
      refine ⟨Or.inl hb, ?_, ?_⟩
      · intro a ha
        rw [hb] at ha
        injection ha with he
        rw [he]
      · intro ev hev
        exact absurd hev (List.not_mem_nil ev)
  | cons ev rest ih =>
    intro acc
    rw [List.foldl_cons]
    obtain ⟨ihnone, ihsome⟩ := ih (scanStep nowDay nowMs acc ev)
    constructor
    · rw [ihnone, scanStep_none_iff]
      constructor
      · rintro ⟨⟨ha, hev⟩, hrest⟩
        refine ⟨ha, ?_⟩
        intro ev2 hev2
        rcases List.mem_cons.mp hev2 with he | hmem
        · rw [he]
          exact hev
        · exact hrest ev2 hmem
      · rintro ⟨ha, hall⟩
        exact ⟨⟨ha, hall ev (List.mem_cons_self ev rest)⟩,
          fun ev2 hmem => hall ev2 (List.mem_cons_of_mem ev hmem)⟩
    · intro b hb
      obtain ⟨hsrc, hacc, hmin⟩ := ihsome b hb
      have hstep : ∀ a, scanStep nowDay nowMs acc ev = some a →
          (acc = some a ∨ checkEvent nowDay nowMs ev = some a) ∧
          (∀ a0, acc = some a0 → a.minutesLeft ≤ a0.minutesLeft) ∧
          (∀ c, checkEvent nowDay nowMs ev = some c → a.minutesLeft ≤ c.minutesLeft) :=
        fun a ha => scanStep_some nowDay nowMs acc ev a ha
      constructor
      · rcases hsrc with hs | ⟨ev2, hmem, hcheck⟩
        · rcases (hstep b hs).1 with h1 | h2
          · exact Or.inl h1
          · exact Or.inr ⟨ev, List.mem_cons_self ev rest, h2⟩
        · exact Or.inr ⟨ev2, List.mem_cons_of_mem ev hmem, hcheck⟩
      constructor
      · intro a ha
        cases hs : scanStep nowDay nowMs acc ev with
        | none =>
          rw [scanStep_none_iff] at hs
          rw [hs.1] at ha
          exact Option.noConfusion ha
        | some a2 =>
          have h1 := hacc a2 hs
          have h2 := (hstep a2 hs).2.1 a ha
          exact Int.le_trans h1 h2
      · intro ev2 hmem c hcheck
        rcases List.mem_cons.mp hmem with he | hmem2
        · subst he
          cases hs : scanStep nowDay nowMs acc ev2 with
          | none =>
            rw [scanStep_none_iff] at hs
            exact Option.noConfusion (hs.2 ▸ hcheck)
          | some a2 =>
            have h1 := hacc a2 hs
            have h2 := (hstep a2 hs).2.2 c hcheck
            exact Int.le_trans h1 h2
        · exact hmin ev2 hmem2 c hcheck

set_option maxRecDepth 4000 in
theorem checkEvent_none_iff (nowDay nowMs : Int) (ev : CalendarEvent) :
    checkEvent nowDay nowMs ev = none ↔
      (ev.day = nowDay → ∀ t, ev.startTime = some t →
        ¬(0 < startMsOfHM t - nowMs ∧ startMsOfHM t - nowMs ≤ 3600000)) := by
  unfold checkEvent
  by_cases hd : ev.day = nowDay
  · rw [if_pos hd]
    cases hst : ev.startTime with
    | none =>
      show (none : Option UpcomingNotice) = none ↔ _
      simp
    | some t =>
      show (if 0 < startMsOfHM t - nowMs ∧ startMsOfHM t - nowMs ≤ 3600000 then
          some ({ eventId := ev.id, title := ev.template.name,
                  minutesLeft := (startMsOfHM t - nowMs + 59999) / 60000 } : UpcomingNotice)
        else none) = none ↔ _
      by_cases hq : 0 < startMsOfHM t - nowMs ∧ startMsOfHM t - nowMs ≤ 3600000
      · rw [if_pos hq]
        constructor
        · intro h
          exact Option.noConfusion h
        · intro h
          exact (h hd t rfl hq).elim
      · rw [if_neg hq]
        constructor
        · intro hnone hdd t2 ht2
          rw [Option.some_inj] at ht2
          subst ht2
          exact hq
        · intro h
          rfl
  · rw [if_neg hd]
    simp [hd]

set_option maxRecDepth 4000 in
theorem checkEvent_some_iff (nowDay nowMs : Int) (ev : CalendarEvent)
    (c : UpcomingNotice) :
    checkEvent nowDay nowMs ev = some c ↔
      ev.day = nowDay ∧ ∃ t, ev.startTime = some t ∧
        0 < startMsOfHM t - nowMs ∧ startMsOfHM t - nowMs ≤ 3600000 ∧
        c = { eventId := ev.id, title := ev.template.name,
              minutesLeft := (startMsOfHM t - nowMs + 59999) / 60000 } := by
  unfold checkEvent
  by_cases hd : ev.day = nowDay
  · rw [if_pos hd]
    cases hst : ev.startTime with
    | none =>
      show (none : Option UpcomingNotice) = some c ↔ _
      simp
    | some t =>
      show (if 0 < startMsOfHM t - nowMs ∧ startMsOfHM t - nowMs ≤ 3600000 then
          some ({ eventId := ev.id, title := ev.template.name,
                  minutesLeft := (startMsOfHM t - nowMs + 59999) / 60000 } : UpcomingNotice)
        else none) = some c ↔ _
      by_cases hq : 0 < startMsOfHM t - nowMs ∧ startMsOfHM t - nowMs ≤ 3600000
      · rw [if_pos hq]
        constructor
        · intro h
          rw [Option.some_inj] at h
          exact ⟨hd, t, rfl, hq.1, hq.2, h.symm⟩
        · rintro ⟨hd2, t2, ht2, h1, h2, hc⟩
          rw [Option.some_inj] at ht2
          subst ht2
          rw [hc]
      · rw [if_neg hq]
        constructor
        · intro h
          exact Option.noConfusion h
        · rintro ⟨hd2, t2, ht2, h1, h2, hc⟩
          rw [Option.some_inj] at ht2
          subst ht2
          exact absurd ⟨h1, h2⟩ hq
  · rw [if_neg hd]
    simp [hd]

/-- C1: on a tick at time `nowMs` (milliseconds past midnight) of day
`today`, the notifier returns null exactly when no event on today's
Monday-based day index with a non-empty startTime starts strictly after now
and at most 60 minutes from now; otherwise it returns a notice for such an
event whose `minutesLeft` is the ceiling of the remaining time in minutes
(characterized by `60000·(minutesLeft−1) < diff ≤ 60000·minutesLeft`), and
that event is minimal: every qualifying event has at least as many minutes
left and starts no earlier. -/
theorem useUpcomingNotice_spec (today nowMs : Int) (events : List CalendarEvent) :
    (useUpcomingNotice today nowMs events = none ↔
      ∀ ev ∈ events, ev.day = toMondayIndex (jsGetDay today) →
        ∀ t, ev.startTime = some t →
          ¬(0 < startMsOfHM t - nowMs ∧ startMsOfHM t - nowMs ≤ 3600000)) ∧
    (∀ b, useUpcomingNotice today nowMs events = some b →
      ∃ ev ∈ events, ev.day = toMondayIndex (jsGetDay today) ∧
        ∃ t, ev.startTime = some t ∧
          0 < startMsOfHM t - nowMs ∧ startMsOfHM t - nowMs ≤ 3600000 ∧
          b.eventId = ev.id ∧ b.title = ev.template.name ∧
          b.minutesLeft = (startMsOfHM t - nowMs + 59999) / 60000 ∧
          60000 * (b.minutesLeft - 1) < startMsOfHM t - nowMs ∧
          startMsOfHM t - nowMs ≤ 60000 * b.minutesLeft ∧
          (∀ ev2 ∈ events, ev2.day = toMondayIndex (jsGetDay today) →
            ∀ t2, ev2.startTime = some t2 →
              0 < startMsOfHM t2 - nowMs → startMsOfHM t2 - nowMs ≤ 3600000 →
                (b.minutesLeft ≤ (startMsOfHM t2 - nowMs + 59999) / 60000 ∧
                 startMsOfHM t ≤ startMsOfHM t2))) := by
  have hgo := upcomingScan_go (toMondayIndex (jsGetDay today)) nowMs events none
  constructor
  · unfold useUpcomingNotice upcomingScan
    rw [hgo.1]
    constructor
    · rintro ⟨-, hall⟩ ev hev hd t ht hq
      exact ((checkEvent_none_iff _ _ _).mp (hall ev hev)) hd t ht hq
    · intro h
      exact ⟨rfl, fun ev hev =>
        (checkEvent_none_iff _ _ _).mpr (fun hd t ht => h ev hev hd t ht)⟩
  · intro b hb
    unfold useUpcomingNotice upcomingScan at hb
    obtain ⟨hsrc, hacc, hmin⟩ := hgo.2 b hb
    rcases hsrc with hs | ⟨ev, hev, hcheck⟩
    · exact Option.noConfusion hs
    · obtain ⟨hd, t, ht, hq1, hq2, hcval⟩ := (checkEvent_some_iff _ _ _ _).mp hcheck
      have hml_eq : b.minutesLeft = (startMsOfHM t - nowMs + 59999) / 60000 := by
        rw [hcval]
      have hid : b.eventId = ev.id := by rw [hcval]
      have htitle : b.title = ev.template.name := by rw [hcval]
      refine ⟨ev, hev, hd, t, ht, hq1, hq2, hid, htitle, hml_eq, ?_, ?_, ?_⟩
      · rw [hml_eq]
        omega
      · rw [hml_eq]
        omega
      · intro ev2 hev2 hd2 t2 ht2 hg1 hg2
        have hc2 : checkEvent (toMondayIndex (jsGetDay today)) nowMs ev2
            = some { eventId := ev2.id, title := ev2.template.name,
                     minutesLeft := (startMsOfHM t2 - nowMs + 59999) / 60000 } :=
          (checkEvent_some_iff _ _ _ _).mpr ⟨hd2, t2, ht2, hg1, hg2, rfl⟩
        have hml := hmin ev2 hev2 _ hc2
        have hml2 : (startMsOfHM t - nowMs + 59999) / 60000
            ≤ (startMsOfHM t2 - nowMs + 59999) / 60000 := by
          rw [← hml_eq]
          exact hml
        constructor
        · rw [hml_eq]
          exact hml2
        · simp only [startMsOfHM] at hml2 ⊢
          omega

/-- The spec's worked example, evaluated on the embedding: on a Monday
(epoch day 4 is Monday 1970-01-05) at 09:00, an event at 09:30 yields a
notice with 30 minutes left, while events at 10:01 (more than an hour away)
and 08:59 (already started) yield none on their own. -/
theorem useUpcomingNotice_examples :
    useUpcomingNotice 4 32400000
        [demoEventAt "e1" 9 30, demoEventAt "e2" 10 1, demoEventAt "e3" 8 59]
      = some { eventId := "e1", title := "Workout", minutesLeft := 30 } ∧
    useUpcomingNotice 4 32400000 [demoEventAt "e2" 10 1] = none ∧
    useUpcomingNotice 4 32400000 [demoEventAt "e3" 8 59] = none := by
  refine ⟨by decide, by decide, by decide⟩

/-- Witness for C1: the already-started 08:59 event yields no notice at
09:00, via the none-characterization discharged on concrete data. -/
theorem useUpcomingNotice_spec_witness :
    useUpcomingNotice 4 32400000 [demoEventAt "e3" 8 59] = none :=
  (useUpcomingNotice_spec 4 32400000 [demoEventAt "e3" 8 59]).1.mpr (by decide)

/-- Witness for C2's amended theorem: the concrete shape of the store after
addEvent on the demo state. -/
theorem addEvent_snapshot_spec_witness :
    (addEvent demoState demoNewEvent "e7").calendars
      = demoState.calendars.map (fun c =>
          if c.id = demoCalendarA.id
          then { c with events := c.events ++ [newEventFromData demoNewEvent "e7"] }
          else c) :=
  (addEvent_snapshot_spec demoState demoNewEvent "e7").1 demoCalendarA (by decide)

/-- Witness for C3: deleting the demo template from the selected calendar
filters exactly the template list in place. -/
theorem templateOps_leave_events_witness :
    (deleteTemplate demoState "t1").calendars[0]?
      = some { demoCalendarA with
          templates := demoCalendarA.templates.filter (fun t => t.id != "t1") } :=
  (templateOps_leave_events demoState "t1" demoTemplateData).2.2.2
    demoCalendarA (by decide) 0 demoCalendarA (by decide) (by decide)

/-- Witness for C5: deleting the selected calendar moves the selection to the
head of the remainder. -/
theorem deleteCalendar_spec_witness :
    (deleteCalendar demoState "c1").selectedCalendarId
      = ((deleteCalendar demoState "c1").calendars.head?).map (fun c => c.id) :=
  (deleteCalendar_spec demoState "c1").2.2.2.1 rfl

/-- Witness for C6's amended theorem: a parsed non-empty array is returned
as-is with nothing persisted. -/
theorem loadCalendars_spec_witness :
    loadCalendars (StoredCalendars.parsedArray [demoCalendarA]) "9"
      = { calendars := [demoCalendarA], persistedCalendars := none,
          persistedSelectedId := none } :=
  (loadCalendars_spec (StoredCalendars.parsedArray [demoCalendarA]) "9").2
    [demoCalendarA] rfl (by decide)

/-- Witness for C7's amended theorem: a single 1 MB file on an empty
attachment list is accepted in full. -/
theorem handleFileChange_spec_witness :
    ∃ k, k ≤ 1 ∧
      (handleFileChange [] [1048576]).1
        = (([1048576] : List Nat).take k).map
            (fun s => (⟨s, true⟩ : FormAttachment)) := by
  obtain ⟨k, hk, h1, h2, h3, h4⟩ := handleFileChange_spec [] [1048576]
  exact ⟨k, by simpa using hk, by simpa using h1⟩

/-- Witness for C9: the bounds conjunct applied to a concrete date
(2025-10-12, epoch day 20373). -/
theorem toMondayIndex_spec_witness :
    0 ≤ mondayIndex 20373 ∧ mondayIndex 20373 < 7 :=
  ⟨(toMondayIndex_spec.1 20373).2.1, (toMondayIndex_spec.1 20373).2.2⟩

/-- Witness for C10: deleting a template in the selected first calendar
leaves the unselected second calendar untouched. -/
theorem mutations_frame_witness :
    (applyMutation demoState (StoreMutation.deleteTemplateOp "t1")).calendars[1]?
      = some demoCalendarB :=
  (mutations_frame demoState (StoreMutation.deleteTemplateOp "t1")).2.2.2.2
    demoCalendarA (by decide) 1 demoCalendarB (by decide) (by decide)

end Oneclick
